import Mathlib

/-!
Shallow embedding of `src/axon.py` (the AXON offline memory agent).

Modelling conventions, chosen to mirror the Python source:

* Python strings are Lean `String`s; character-level work happens on
  `String.data : List Char`.  `str.lower()` is modelled as a character-wise
  `Char.toLower` (the prompts and stored subjects exercised by the claims are
  ASCII, where the two coincide).  `str.strip()` is `pyStrip`;
  `str.strip(chars)` is `pyStripChars`.
* The `re` patterns of the source are translated into executable recursive
  scanners with Python's semantics: `re.search` scans start positions left to
  right, `.` matches any character except a newline, `\s+` is greedy with
  backtracking, `(.+?)` is lazy, and `re.IGNORECASE` compares through
  `Char.toLower`.
* `uuid.uuid4().hex` and `datetime.now()` are impure; each modelled operation
  takes the generated identifier(s) and timestamp as explicit arguments.
* Python `float` confidences are modelled as `Rat`: the program only stores
  and compares the literals `0.2`, `0.5`, `0.8`, never computing with them.
* Python dicts that the program uses in insertion order are association lists
  (`lookupAssoc` / `updAssoc` give Python's lookup and update-or-append
  semantics).
* File I/O (`load_memory` / `save_memory`) goes through `json.dumps` /
  `json.load`, which the specification excludes as an external collaborator;
  the JSON text layer is modelled as the identity on JSON value trees, so
  persistence is `saveMemory : Memory → Json × Json` (facts file,
  preferences file) and `loadMemory : Json × Json → Option Memory`.
-/

namespace Axon

/-- Characterwise lowering, the model of Python's `str.lower()`. -/
def pyLower (l : List Char) : List Char := l.map Char.toLower

/-- Python's `str.strip()`: drop whitespace from both ends. -/
def pyStrip (l : List Char) : List Char :=
  List.rdropWhile Char.isWhitespace (List.dropWhile Char.isWhitespace l)

/-- Python's `str.strip(cs)`: drop the characters of `cs` from both ends. -/
def pyStripChars (cs : List Char) (l : List Char) : List Char :=
  List.rdropWhile (fun c => cs.contains c) (List.dropWhile (fun c => cs.contains c) l)

/-- Python's substring test `needle in hay`. -/
def isSubstr (needle : List Char) : List Char → Bool
  | [] => needle.isEmpty
  | c :: rest => needle.isPrefixOf (c :: rest) || isSubstr needle rest

/-- Match the literal `lit` (given lowercase) case-insensitively at the start
of `l`; on success return the remainder.  Model of a `re.IGNORECASE` literal. -/
def dropLitCI : List Char → List Char → Option (List Char)
  | [], l => some l
  | _ :: _, [] => none
  | p :: ps, c :: cs => if Char.toLower c = p then dropLitCI ps cs else none

/-- Match the literal `lit` exactly at the start of `l` (case-sensitive). -/
def dropLitEq : List Char → List Char → Option (List Char)
  | [], l => some l
  | _ :: _, [] => none
  | p :: ps, c :: cs => if c = p then dropLitEq ps cs else none

/-- `(.+)` at the current position: at least one character, `.` not matching
a newline, greedy.  Returns the captured group. -/
def dotPlus (l : List Char) : Option (List Char) :=
  match l with
  | [] => none
  | c :: _ => if c = '\n' then none else some (l.takeWhile (fun d => d ≠ '\n'))

/-- Auxiliary for `wsThenDotPlus`: we already consumed one whitespace
character; prefer consuming more whitespace (greedy `\s+`) and fall back to
starting the `(.+)` group here. -/
def wsDotAux : List Char → Option (List Char)
  | [] => none
  | c :: rest =>
    if c.isWhitespace then
      match wsDotAux rest with
      | some g => some g
      | none => dotPlus (c :: rest)
    else dotPlus (c :: rest)

/-- `\s+(.+)` at the current position, with Python's greedy backtracking. -/
def wsThenDotPlus : List Char → Option (List Char)
  | [] => none
  | c :: rest => if c.isWhitespace then wsDotAux rest else none

/-- `\s+(.*)` at the current position: greedy whitespace, then a possibly
empty non-newline group (no backtracking is ever needed). -/
def wsThenDotStar : List Char → Option (List Char)
  | [] => none
  | c :: rest =>
    if c.isWhitespace then
      some ((rest.dropWhile Char.isWhitespace).takeWhile (fun d => d ≠ '\n'))
    else none

/-- `re.search` for a pattern `lit\s+(.+)` where `dp` matches the literal
(`dropLitCI` for `re.IGNORECASE` patterns, `dropLitEq` otherwise): scan start
positions left to right, returning the first captured group. -/
def scanPatWs (dp : List Char → List Char → Option (List Char)) (lit : List Char) :
    List Char → Option (List Char)
  | [] => none
  | c :: rest =>
    match dp lit (c :: rest) with
    | some r =>
      match wsThenDotPlus r with
      | some g => some g
      | none => scanPatWs dp lit rest
    | none => scanPatWs dp lit rest

/-- One attempt of `(?:cherche|google|web)\s+(.*)` at the current position
(alternatives in source order). -/
def tryQueryAlt (l : List Char) : Option (List Char) :=
  match dropLitCI "cherche".data l with
  | some r => wsThenDotStar r
  | none =>
    match dropLitCI "google".data l with
    | some r => wsThenDotStar r
    | none =>
      match dropLitCI "web".data l with
      | some r => wsThenDotStar r
      | none => none

/-- `re.search(r"(?:cherche|google|web)\s+(.*)", prompt, re.IGNORECASE)`. -/
def scanQuery : List Char → Option (List Char)
  | [] => none
  | c :: rest =>
    match tryQueryAlt (c :: rest) with
    | some g => some g
    | none => scanQuery rest

/-- `_extract_after_keyword`: everything after the first case-insensitive
occurrence of `keyword`, or `""` when absent. -/
def extractAfterKeyword (keyword : List Char) : List Char → List Char
  | [] => []
  | c :: rest =>
    match dropLitCI keyword (c :: rest) with
    | some r => r
    | none => extractAfterKeyword keyword rest

/-- `\s+est\s+(.+)` at the current position (the tail of the fact pattern).
The first `\s+` needs no backtracking because `est` cannot begin with a
whitespace character. -/
def estTail (l : List Char) : Option (List Char) :=
  match l with
  | [] => none
  | c :: _ =>
    if c.isWhitespace then
      match dropLitCI "est".data (l.dropWhile Char.isWhitespace) with
      | some r => wsThenDotPlus r
      | none => none
    else none

/-- Lazy growth of the `(.+?)` subject group: try the shortest subject first,
extending one (non-newline) character at a time. -/
def estSubj : List Char → List Char → Option (List Char × List Char)
  | _, [] => none
  | acc, c :: rest =>
    if c = '\n' then none
    else
      match estTail rest with
      | some g => some (acc ++ [c], g)
      | none => estSubj (acc ++ [c]) rest

/-- `re.search(r"(.+?)\s+est\s+(.+)", cleaned, re.IGNORECASE)`: leftmost
start position, lazy subject, returning (group 1, group 2). -/
def estSearch : List Char → Option (List Char × List Char)
  | [] => none
  | c :: rest =>
    match estSubj [] (c :: rest) with
    | some r => some r
    | none => estSearch rest

/-- JSON value trees, the image of `json.dumps`/`json.load` for the data this
program persists. -/
inductive Json where
  | null : Json
  | bool (b : Bool) : Json
  | num (q : Rat) : Json
  | str (s : String) : Json
  | arr (elems : List Json) : Json
  | obj (fields : List (String × Json)) : Json

/-- Python dict lookup `d.get(k)` on an insertion-ordered association list. -/
def lookupAssoc (k : String) {α : Type} : List (String × α) → Option α
  | [] => none
  | (k', v) :: rest => if k' = k then some v else lookupAssoc k rest

/-- Python dict update `d[k] = v`: overwrite in place if present, else append. -/
def updAssoc (k : String) {α : Type} (v : α) : List (String × α) → List (String × α)
  | [] => [(k, v)]
  | (k', v') :: rest => if k' = k then (k, v) :: rest else (k', v') :: updAssoc k v rest

/-- A fact record as built by `remember_fact` (the `deleted_at` key is only
present after `forget_fact` marks the record, hence an `Option`). -/
structure Fact where
  uid : String
  subject : String
  value : String
  provenance : String
  confidence : Rat
  added_at : String
  notes : Option String
  tags : List String
  deleted : Bool
  deleted_at : Option String
  metadata : List (String × Json)

/-- A preference entry `{opinion, added_at}`. -/
structure PrefEntry where
  opinion : String
  added_at : String
deriving DecidableEq

/-- The preferences mapping: category → item → entry. -/
abbrev Prefs := List (String × List (String × PrefEntry))

/-- The in-memory aggregate `self.memory` (facts `items` list plus
preferences). -/
structure Memory where
  facts : List Fact
  preferences : Prefs

/-- The record shape produced by `search_web` implementations. -/
structure SearchResult where
  subject : String
  value : String
  url : Option String
  summary : String
  provenance : Option String
  confidence : Option Rat

/-- One line of `logs.jsonl` as assembled in `respond`. -/
structure LogEntry where
  timestamp : String
  prompt : String
  response : List String
  actions : List String
  updates : List String

/-- Agent state visible to `respond`: the memory aggregate plus the
append-only log. -/
structure AgentState where
  memory : Memory
  logs : List LogEntry

/-- `remember_fact`'s provenance → default-confidence table. -/
def confidenceMap : List (String × Rat) := [("user", 0.2), ("web", 0.8)]

/-- `remember_fact(subject, value, provenance, *, confidence, notes, tags,
metadata)`: build the fact record and append it to the store.  `uid` and
`now` stand for `uuid.uuid4().hex` and `self._now()`. -/
def rememberFact (uid now subject value provenance : String) (confidence : Option Rat)
    (notes : Option String) (tags : Option (List String))
    (metadata : Option (List (String × Json))) (mem : Memory) : Fact × Memory :=
  let fact : Fact :=
    { uid := uid
      subject := ⟨pyStrip subject.data⟩
      value := ⟨pyStrip value.data⟩
      provenance := provenance
      confidence :=
        match confidence with
        | some c => c
        | none => (lookupAssoc provenance confidenceMap).getD 0.5
      added_at := now
      notes := notes
      tags := tags.getD []
      deleted := false
      deleted_at := none
      metadata := metadata.getD [] }
  (fact, { mem with facts := mem.facts ++ [fact] })

/-- `remember_preference(category, item, opinion)`: upsert
`{opinion, added_at}` at `[category][item]`. -/
def rememberPreference (now category item opinion : String) (prefs : Prefs) : Prefs :=
  let block := (lookupAssoc category prefs).getD []
  updAssoc category (updAssoc item ⟨opinion, now⟩ block) prefs

/-- The loop body of `forget_fact`: walk the items, skipping already-deleted
facts, soft-deleting those whose lowered subject contains the lowered query. -/
def forgetGo (now : String) (ql : List Char) : List Fact → Nat × List Fact
  | [] => (0, [])
  | f :: rest =>
    let r := forgetGo now ql rest
    if f.deleted then (r.1, f :: r.2)
    else if isSubstr ql (pyLower f.subject.data) then
      (r.1 + 1, { f with deleted := true, deleted_at := some now } :: r.2)
    else (r.1, f :: r.2)

/-- `forget_fact(subject_query)`: no-op returning 0 on a whitespace-only
query, else soft-delete matching facts and count them. -/
def forgetFact (now : String) (subject_query : String) (facts : List Fact) :
    Nat × List Fact :=
  if (pyStrip subject_query.data).isEmpty then (0, facts)
  else forgetGo now (pyLower subject_query.data) facts

/-- The loop body of `_find_matching_facts` over the items list. -/
def findGo (ql : List Char) : List Fact → List Fact
  | [] => []
  | f :: rest =>
    if f.deleted then findGo ql rest
    else if isSubstr ql (pyLower f.subject.data) || isSubstr (pyLower f.subject.data) ql then
      f :: findGo ql rest
    else if isSubstr ql (pyLower f.value.data) then f :: findGo ql rest
    else findGo ql rest

/-- `_find_matching_facts(subject_query)`. -/
def findMatchingFacts (subject_query : String) (facts : List Fact) : List Fact :=
  findGo (pyLower subject_query.data) facts

/-- `_extract_query`: first `(?:cherche|google|web)\s+(.*)` group, stripped;
else the stripped prompt. -/
def extractQuery (prompt : String) : String :=
  match scanQuery prompt.data with
  | some g => ⟨pyStrip g⟩
  | none => ⟨pyStrip prompt.data⟩

/-- The leading-trigger eraser of `_parse_fact_statement`
(`^(apprends que|tiens sache que)\s+` substituted by `""`). -/
def matchFactTrigger (lit : List Char) (l : List Char) : Option (List Char) :=
  match dropLitCI lit l with
  | some (c :: rest) =>
    if c.isWhitespace then some ((c :: rest).dropWhile Char.isWhitespace) else none
  | some [] => none
  | none => none

/-- Apply the trigger eraser (the pattern is anchored, so at most one
substitution can happen, at the start). -/
def stripFactTrigger (l : List Char) : List Char :=
  match matchFactTrigger "apprends que".data l with
  | some r => r
  | none =>
    match matchFactTrigger "tiens sache que".data l with
    | some r => r
    | none => l

/-- `_parse_fact_statement`. -/
def parseFactStatement (prompt : String) : Option (String × String) :=
  let cleaned := pyStrip (stripFactTrigger prompt.data)
  match estSearch cleaned with
  | some (subj, val) => some (⟨pyStrip subj⟩, ⟨pyStripChars [' ', '.'] val⟩)
  | none =>
    if (pyStrip cleaned).isEmpty then none
    else some (⟨pyStrip cleaned⟩, ⟨pyStrip cleaned⟩)

/-- Parsed preference data. -/
structure PrefParse where
  category : String
  item : String
  opinion : String

/-- `_parse_preference_statement`. -/
def parsePreferenceStatement (prompt : String) : Option PrefParse :=
  let lowered := pyLower prompt.data
  if isSubstr "mon avis".data lowered then
    let after := pyStripChars [' ', ':'] (extractAfterKeyword "mon avis".data prompt.data)
    if after.isEmpty then none
    else some ⟨"general", ⟨after⟩, ⟨after⟩⟩
  else
    match scanPatWs dropLitCI "j'aime".data prompt.data with
    | some item => some ⟨"likes", ⟨pyStripChars [' ', '.'] item⟩, "like"⟩
    | none =>
      match scanPatWs dropLitCI "je n'aime pas".data prompt.data with
      | some item => some ⟨"dislikes", ⟨pyStripChars [' ', '.'] item⟩, "dislike"⟩
      | none => none

/-- `_extract_question_subject`. -/
def extractQuestionSubject (prompt : String) : Option String :=
  let lowered := pyStripChars [' ', '?', '!', '.'] (pyLower prompt.data)
  match scanPatWs dropLitEq "qui est".data lowered with
  | some g => some ⟨pyStrip g⟩
  | none =>
    match scanPatWs dropLitEq "qu'est-ce que".data lowered with
    | some g => some ⟨pyStrip g⟩
    | none =>
      match scanPatWs dropLitEq "quel est".data lowered with
      | some g => some ⟨pyStrip g⟩
      | none =>
        let lowered2 := if lowered.getLast? = some '?' then lowered.dropLast else lowered
        if lowered2.isEmpty then none else some ⟨lowered2⟩

/-- The default (stub) `search_web` implementation. -/
def searchWebDefault (query : String) : List SearchResult :=
  let summary := "Aucune recherche en ligne réelle n'a été effectuée pour '" ++ query ++ "'."
  [{ subject := "web_search:" ++ query
     value := summary
     url := none
     summary := summary
     provenance := some "web"
     confidence := some 0.5 }]

/-- The storing loop of the search branch of `respond`: one `remember_fact`
call per result, collecting `fact:<id>` update markers.  `ids i` supplies the
uuid for the `i`-th created fact. -/
def storeResults (now : String) (ids : Nat → String) (query : String) :
    List SearchResult → Nat → Memory → Memory × List String
  | [], _, mem => (mem, [])
  | r :: rest, i, mem =>
    let fm := rememberFact (ids i) now r.subject r.summary (r.provenance.getD "web")
      r.confidence none none
      (some [("url", match r.url with | some u => Json.str u | none => Json.null),
             ("query", Json.str query)]) mem
    let tail := storeResults now ids query rest (i + 1) fm.2
    (tail.1, ("fact:" ++ fm.1.uid) :: tail.2)

/-- The outcome of one `respond` dispatch: new memory, response lines, action
tags and update markers. -/
structure StepResult where
  memory : Memory
  response : List String
  actions : List String
  updates : List String

/-- The dispatching body of `respond` (everything between the reload at entry
and the persist/log at exit).  `results` stands for the overridable
`self.search_web`. -/
def respondCore (results : String → List SearchResult) (now : String) (ids : Nat → String)
    (mem : Memory) (prompt : String) : StepResult :=
  let lowered := pyStrip (pyLower prompt.data)
  if isSubstr "cherche".data lowered || isSubstr "google".data lowered ||
      isSubstr "web".data lowered then
    let query := extractQuery prompt
    let mu := storeResults now ids query (results query) 0 mem
    ⟨mu.1, ["Résultat de recherche (mock) pour '" ++ query ++ "'."], ["search_web"], mu.2⟩
  else if isSubstr "apprends que".data lowered || isSubstr "tiens sache que".data lowered then
    match parseFactStatement prompt with
    | some sv =>
      let fm := rememberFact (ids 0) now sv.1 sv.2 "user" none none none none mem
      ⟨fm.2,
        ["Je mémorise que " ++ fm.1.subject ++ " est " ++ fm.1.value ++
          " (provenance utilisateur)."],
        ["remember_fact"], ["fact:" ++ fm.1.uid]⟩
    | none => ⟨mem, ["Je n'ai pas réussi à comprendre le fait à mémoriser."],
        ["remember_fact"], []⟩
  else if isSubstr "mon avis".data lowered || isSubstr "j'aime".data lowered ||
      isSubstr "je n'aime pas".data lowered then
    match parsePreferenceStatement prompt with
    | some p =>
      ⟨{ mem with preferences :=
            (rememberPreference now p.category p.item p.opinion mem.preferences) },
        ["Préférence enregistrée pour " ++ p.item ++ " dans " ++ p.category ++ "."],
        ["remember_preference"], ["preference:" ++ p.category ++ ":" ++ p.item]⟩
    | none => ⟨mem, ["Je n'ai pas compris la préférence à enregistrer."],
        ["remember_preference"], []⟩
  else if isSubstr "oublie".data lowered then
    let sq : String := ⟨pyStrip (extractAfterKeyword "oublie".data prompt.data)⟩
    if sq.data.isEmpty then
      ⟨mem, ["Précise ce que je dois oublier."], ["forget_fact"], []⟩
    else
      let nf := forgetFact now sq mem.facts
      if nf.1 ≠ 0 then
        ⟨{ mem with facts := nf.2 },
          [Nat.repr nf.1 ++ " fait(s) marqué(s) comme oublié(s) pour '" ++ sq ++ "'."],
          ["forget_fact"], []⟩
      else
        ⟨{ mem with facts := nf.2 }, ["Aucun fait correspondant à oublier."],
          ["forget_fact"], []⟩
  else
    match extractQuestionSubject prompt with
    | some sq =>
      let ms := findMatchingFacts sq mem.facts
      if ms.isEmpty then
        ⟨mem, ["Je n'ai aucun fait correspondant en mémoire."], ["answer"], []⟩
      else
        ⟨mem,
          ms.map (fun f => "Selon " ++ f.provenance ++ ": " ++ f.subject ++ " = " ++
            f.value ++ " [" ++ f.added_at ++ "]."),
          ["answer"], []⟩
    | none =>
      ⟨mem, ["Je suis prêt à apprendre ou à répondre selon les instructions."], ["answer"], []⟩

/-- `respond(prompt)`: dispatch, persist (a pure no-op at the value level),
append exactly one log entry, and return the joined response lines. -/
def respond (results : String → List SearchResult) (now : String) (ids : Nat → String)
    (st : AgentState) (prompt : String) : AgentState × String :=
  let r := respondCore results now ids st.memory prompt
  (⟨r.memory, st.logs ++ [⟨now, prompt, r.response, r.actions, r.updates⟩]⟩,
    String.intercalate "\n" r.response)

/-- Sequence a fallible decoder over a list (`none` as soon as one element
fails). -/
def optTraverse {α β : Type} (f : α → Option β) : List α → Option (List β)
  | [] => some []
  | a :: rest =>
    match f a with
    | none => none
    | some b =>
      match optTraverse f rest with
      | none => none
      | some bs => some (b :: bs)

/-- Encode a fact record exactly as `json.dumps` writes the dict built by
`remember_fact` (the `deleted_at` key exists only once `forget_fact` set it). -/
def factToJson (f : Fact) : Json :=
  Json.obj
    ([("id", Json.str f.uid), ("subject", Json.str f.subject),
      ("value", Json.str f.value), ("provenance", Json.str f.provenance),
      ("confidence", Json.num f.confidence), ("added_at", Json.str f.added_at),
      ("notes", match f.notes with | some s => Json.str s | none => Json.null),
      ("tags", Json.arr (f.tags.map Json.str)), ("deleted", Json.bool f.deleted),
      ("metadata", Json.obj f.metadata)] ++
      (match f.deleted_at with | some t => [("deleted_at", Json.str t)] | none => []))

/-- Projections out of a decoded JSON value. -/
def Json.asStr : Json → Option String
  | .str s => some s
  | _ => none

def Json.asNum : Json → Option Rat
  | .num q => some q
  | _ => none

def Json.asBool : Json → Option Bool
  | .bool b => some b
  | _ => none

def Json.asOptStr : Json → Option (Option String)
  | .null => some none
  | .str s => some (some s)
  | _ => none

def Json.asObj : Json → Option (List (String × Json))
  | .obj fields => some fields
  | _ => none

def Json.asStrList : Json → Option (List String)
  | .arr elems => optTraverse Json.asStr elems
  | _ => none

/-- Read a fact record back out of its JSON object, field for field. -/
def jsonToFact (j : Json) : Option Fact := do
  let fields ← j.asObj
  let uid ← (lookupAssoc "id" fields).bind Json.asStr
  let subject ← (lookupAssoc "subject" fields).bind Json.asStr
  let value ← (lookupAssoc "value" fields).bind Json.asStr
  let provenance ← (lookupAssoc "provenance" fields).bind Json.asStr
  let confidence ← (lookupAssoc "confidence" fields).bind Json.asNum
  let added_at ← (lookupAssoc "added_at" fields).bind Json.asStr
  let notes ← (lookupAssoc "notes" fields).bind Json.asOptStr
  let tags ← (lookupAssoc "tags" fields).bind Json.asStrList
  let deleted ← (lookupAssoc "deleted" fields).bind Json.asBool
  let metadata ← (lookupAssoc "metadata" fields).bind Json.asObj
  let deleted_at ←
    match lookupAssoc "deleted_at" fields with
    | none => some none
    | some v => (Json.asStr v).map some
  some { uid := uid, subject := subject, value := value, provenance := provenance,
         confidence := confidence, added_at := added_at, notes := notes, tags := tags,
         deleted := deleted, deleted_at := deleted_at, metadata := metadata }

/-- Encode a preference entry `{opinion, added_at}`. -/
def prefEntryToJson (e : PrefEntry) : Json :=
  Json.obj [("opinion", Json.str e.opinion), ("added_at", Json.str e.added_at)]

def jsonToPrefEntry (j : Json) : Option PrefEntry := do
  let fields ← j.asObj
  let opinion ← (lookupAssoc "opinion" fields).bind Json.asStr
  let added ← (lookupAssoc "added_at" fields).bind Json.asStr
  some ⟨opinion, added⟩

def jsonToPrefBlock (j : Json) : Option (List (String × PrefEntry)) := do
  let fields ← j.asObj
  optTraverse (fun kv => (jsonToPrefEntry kv.2).map (fun e => (kv.1, e))) fields

def jsonToPrefs (j : Json) : Option Prefs := do
  let fields ← j.asObj
  optTraverse (fun kv => (jsonToPrefBlock kv.2).map (fun b => (kv.1, b))) fields

/-- `save_memory`: the JSON value trees written to the facts file
(`{"items": [...]}`) and the preferences file. -/
def saveMemory (mem : Memory) : Json × Json :=
  (Json.obj [("items", Json.arr (mem.facts.map factToJson))],
   Json.obj (mem.preferences.map (fun cb =>
     (cb.1, Json.obj (cb.2.map (fun ie => (ie.1, prefEntryToJson ie.2)))))))

/-- `load_memory`: read both files back into the in-memory aggregate. -/
def loadMemory (files : Json × Json) : Option Memory := do
  let ffields ← files.1.asObj
  let items ←
    match lookupAssoc "items" ffields with
    | some (Json.arr l) => optTraverse jsonToFact l
    | _ => none
  let prefs ← jsonToPrefs files.2
  some ⟨items, prefs⟩

/-! ## Sample records used by concrete scenarios and witnesses -/

/-- The fact stored by the spec's Paris scenario. -/
def parisFact : Fact :=
  { uid := "fact-paris", subject := "Paris", value := "la capitale de la France",
    provenance := "user", confidence := 0.2, added_at := "2024-01-01T00:00:00+00:00",
    notes := none, tags := [], deleted := false, deleted_at := none, metadata := [] }

/-- A fact with subject `"France"` (value picked, per the matching rules,
not to contain `"pa"`). -/
def franceFact : Fact :=
  { uid := "fact-france", subject := "France", value := "Europe",
    provenance := "user", confidence := 0.5, added_at := "2024-01-01T00:00:00+00:00",
    notes := none, tags := [], deleted := false, deleted_at := none, metadata := [] }

/-! ## Lemmas -/

theorem findGo_eq_filter (ql : List Char) (facts : List Fact) :
    findGo ql facts = facts.filter (fun f => !f.deleted &&
      (isSubstr ql (pyLower f.subject.data) || isSubstr (pyLower f.subject.data) ql ||
        isSubstr ql (pyLower f.value.data))) := by
  induction facts with
  | nil => rfl
  | cons f rest ih =>
    rw [List.filter_cons]
    cases hd : f.deleted
    · cases h1 : isSubstr ql (pyLower f.subject.data) <;>
        cases h2 : isSubstr (pyLower f.subject.data) ql <;>
        cases h3 : isSubstr ql (pyLower f.value.data) <;>
        simp [findGo, hd, h1, h2, h3, ih]
    · simp [findGo, hd, ih]

theorem forgetGo_idem (now1 now2 : String) (ql : List Char) (facts : List Fact) :
    forgetGo now2 ql (forgetGo now1 ql facts).2 = (0, (forgetGo now1 ql facts).2) := by
  induction facts with
  | nil => rfl
  | cons f rest ih =>
    cases hd : f.deleted
    · cases hm : isSubstr ql (pyLower f.subject.data) <;>
        simp [forgetGo, hd, hm, ih]
    · simp [forgetGo, hd, ih]

theorem optTraverse_strs (l : List String) :
    optTraverse Json.asStr (l.map Json.str) = some l := by
  induction l with
  | nil => rfl
  | cons s rest ih => simp [optTraverse, Json.asStr, ih]

theorem jsonToFact_factToJson (f : Fact) : jsonToFact (factToJson f) = some f := by
  obtain ⟨uid, subject, value, provenance, confidence, added_at, notes, tags,
    deleted, deleted_at, metadata⟩ := f
  cases notes with
  | none =>
    cases deleted_at with
    | none =>
      have step : jsonToFact (factToJson ⟨uid, subject, value, provenance, confidence,
          added_at, none, tags, deleted, none, metadata⟩)
          = (optTraverse Json.asStr (tags.map Json.str)).bind
            (fun ts => some ⟨uid, subject, value, provenance, confidence,
              added_at, none, ts, deleted, none, metadata⟩) := rfl
      rw [step, optTraverse_strs]; rfl
    | some t =>
      have step : jsonToFact (factToJson ⟨uid, subject, value, provenance, confidence,
          added_at, none, tags, deleted, some t, metadata⟩)
          = (optTraverse Json.asStr (tags.map Json.str)).bind
            (fun ts => some ⟨uid, subject, value, provenance, confidence,
              added_at, none, ts, deleted, some t, metadata⟩) := rfl
      rw [step, optTraverse_strs]; rfl
  | some n =>
    cases deleted_at with
    | none =>
      have step : jsonToFact (factToJson ⟨uid, subject, value, provenance, confidence,
          added_at, some n, tags, deleted, none, metadata⟩)
          = (optTraverse Json.asStr (tags.map Json.str)).bind
            (fun ts => some ⟨uid, subject, value, provenance, confidence,
              added_at, some n, ts, deleted, none, metadata⟩) := rfl
      rw [step, optTraverse_strs]; rfl
    | some t =>
      have step : jsonToFact (factToJson ⟨uid, subject, value, provenance, confidence,
          added_at, some n, tags, deleted, some t, metadata⟩)
          = (optTraverse Json.asStr (tags.map Json.str)).bind
            (fun ts => some ⟨uid, subject, value, provenance, confidence,
              added_at, some n, ts, deleted, some t, metadata⟩) := rfl
      rw [step, optTraverse_strs]; rfl

theorem optTraverse_facts (l : List Fact) :
    optTraverse jsonToFact (l.map factToJson) = some l := by
  induction l with
  | nil => rfl
  | cons f rest ih => simp [optTraverse, jsonToFact_factToJson, ih]

theorem jsonToPrefEntry_prefEntryToJson (e : PrefEntry) :
    jsonToPrefEntry (prefEntryToJson e) = some e := rfl

theorem prefBlock_key (l : List (String × PrefEntry)) :
    optTraverse (fun kv => (jsonToPrefEntry kv.2).map (fun e => (kv.1, e)))
      (l.map (fun ie => (ie.1, prefEntryToJson ie.2))) = some l := by
  induction l with
  | nil => rfl
  | cons ie rest ih => simp [optTraverse, jsonToPrefEntry_prefEntryToJson, ih]

theorem jsonToPrefBlock_roundtrip (b : List (String × PrefEntry)) :
    jsonToPrefBlock (Json.obj (b.map (fun ie => (ie.1, prefEntryToJson ie.2)))) = some b := by
  simp [jsonToPrefBlock, Json.asObj, prefBlock_key]

theorem prefs_key (p : Prefs) :
    optTraverse (fun kv => (jsonToPrefBlock kv.2).map (fun blk => (kv.1, blk)))
      (p.map (fun cb =>
        (cb.1, Json.obj (cb.2.map (fun ie => (ie.1, prefEntryToJson ie.2)))))) = some p := by
  induction p with
  | nil => rfl
  | cons cb rest ih => simp [optTraverse, jsonToPrefBlock_roundtrip, ih]

theorem jsonToPrefs_roundtrip (p : Prefs) :
    jsonToPrefs (Json.obj (p.map (fun cb =>
      (cb.1, Json.obj (cb.2.map (fun ie => (ie.1, prefEntryToJson ie.2))))))) = some p := by
  simp [jsonToPrefs, Json.asObj, prefs_key]

theorem loadMemory_saveMemory (mem : Memory) : loadMemory (saveMemory mem) = some mem := by
  obtain ⟨facts, prefs⟩ := mem
  simp [loadMemory, saveMemory, Json.asObj, lookupAssoc, optTraverse_facts,
    jsonToPrefs_roundtrip]

/-! ## Claims -/

/-- C1: for every query string, `_find_matching_facts` returns exactly the
non-soft-deleted facts of the store satisfying, case-insensitively, query ⊆
subject or subject ⊆ query or query ⊆ value, in store insertion order with no
deduplication (a filter of the store); and a fact with subject `"France"`
does not match the query `"Pa"`. -/
theorem find_matching_facts_spec :
    (∀ (q : String) (facts : List Fact),
      findMatchingFacts q facts = facts.filter (fun f => !f.deleted &&
        (isSubstr (pyLower q.data) (pyLower f.subject.data) ||
         isSubstr (pyLower f.subject.data) (pyLower q.data) ||
         isSubstr (pyLower q.data) (pyLower f.value.data)))) ∧
    findMatchingFacts "Pa" [franceFact] = [] :=
  ⟨fun q facts => findGo_eq_filter (pyLower q.data) facts, rfl⟩

/-- C2: `remember_fact` stores an explicitly supplied confidence unchanged;
with confidence omitted it defaults by provenance: `"user"` → 0.2, `"web"` →
0.8, anything else → 0.5. -/
theorem remember_fact_confidence (uid now subject value provenance : String)
    (confidence : Option Rat) (notes : Option String) (tags : Option (List String))
    (metadata : Option (List (String × Json))) (mem : Memory) :
    ((rememberFact uid now subject value provenance confidence notes tags
        metadata mem).1).confidence =
      confidence.getD
        (if provenance = "user" then 0.2 else if provenance = "web" then 0.8 else 0.5) := by
  cases confidence with
  | some c => rfl
  | none =>
    show (lookupAssoc provenance confidenceMap).getD 0.5 = _
    by_cases h1 : provenance = "user"
    · subst h1; rfl
    · by_cases h2 : provenance = "web"
      · subst h2; rfl
      · simp [lookupAssoc, confidenceMap, h1, h2, Ne.symm h1, Ne.symm h2]

/-- C6: `forget_fact` on an empty or whitespace-only query returns 0 and
leaves every fact (including any deleted flags and timestamps) unchanged. -/
theorem forget_fact_empty_query (now q : String) (facts : List Fact)
    (h : (pyStrip q.data).isEmpty = true) : forgetFact now q facts = (0, facts) := by
  simp [forgetFact, h]

theorem forget_fact_empty_query_witness :
    ((pyStrip "   ".data).isEmpty = true) ∧
      forgetFact "t0" "   " [franceFact] = (0, [franceFact]) :=
  ⟨by decide, forget_fact_empty_query "t0" "   " [franceFact] (by decide)⟩

/-- C10: `forget_fact` is idempotent: re-running the same query on the state
produced by a first call deletes nothing, returns 0, and preserves every
fact, including the `deleted_at` timestamps set by the first call. -/
theorem forget_fact_idempotent (now1 now2 q : String) (facts : List Fact) :
    forgetFact now2 q (forgetFact now1 q facts).2 =
      (0, (forgetFact now1 q facts).2) := by
  by_cases h : (pyStrip q.data).isEmpty = true
  · simp [forgetFact, h]
  · simp only [forgetFact, if_neg h]
    exact forgetGo_idem now1 now2 (pyLower q.data) facts

/-- C8: a fact created by `remember_fact` survives `save_memory` followed by
`load_memory` unchanged: persistence round-trips the whole aggregate, and
serialisation followed by deserialisation is the identity on the new fact
record, field for field. -/
theorem remember_fact_persist_roundtrip (uid now subject value provenance : String)
    (confidence : Option Rat) (notes : Option String) (tags : Option (List String))
    (metadata : Option (List (String × Json))) (mem : Memory) :
    loadMemory (saveMemory
        (rememberFact uid now subject value provenance confidence notes tags
          metadata mem).2) =
      some (rememberFact uid now subject value provenance confidence notes tags
          metadata mem).2 ∧
    jsonToFact (factToJson
        (rememberFact uid now subject value provenance confidence notes tags
          metadata mem).1) =
      some (rememberFact uid now subject value provenance confidence notes tags
          metadata mem).1 :=
  ⟨loadMemory_saveMemory _, jsonToFact_factToJson _⟩

theorem string_data_append (a b : String) : (a ++ b).data = a.data ++ b.data := by
  cases a; cases b; rfl

theorem pyLower_cons (c : Char) (l : List Char) :
    pyLower (c :: l) = Char.toLower c :: pyLower l := rfl

theorem dropLitCI_none (lit : List Char) : ∀ l : List Char,
    lit.isPrefixOf (pyLower l) = false → dropLitCI lit l = none := by
  induction lit with
  | nil => intro l h; simp [List.isPrefixOf] at h
  | cons p ps ih =>
    intro l h
    cases l with
    | nil => rfl
    | cons c cs =>
      rw [pyLower_cons, List.isPrefixOf_cons₂] at h
      rcases Bool.and_eq_false_iff.mp h with h1 | h2
      · have : ¬(Char.toLower c = p) := by
          intro hc
          rw [hc] at h1
          simp at h1
        simp [dropLitCI, this]
      · by_cases hc : Char.toLower c = p
        · simp [dropLitCI, hc, ih cs h2]
        · simp [dropLitCI, hc]

theorem scanPatWs_none (lit : List Char) : ∀ l : List Char,
    isSubstr lit (pyLower l) = false → scanPatWs dropLitCI lit l = none := by
  intro l
  induction l with
  | nil => intro h; rfl
  | cons c rest ih =>
    intro h
    rw [pyLower_cons] at h
    have h' : (lit.isPrefixOf (Char.toLower c :: pyLower rest) ||
        isSubstr lit (pyLower rest)) = false := h
    rcases Bool.or_eq_false_iff.mp h' with ⟨h1, h2⟩
    have hdrop : dropLitCI lit (c :: rest) = none := dropLitCI_none lit (c :: rest) h1
    simp [scanPatWs, hdrop, ih h2]

theorem strip_of_clean (a y : List Char)
    (hne : a.isEmpty = false)
    (haH : List.dropWhile Char.isWhitespace a = a)
    (haR : List.dropWhile Char.isWhitespace a.reverse = a.reverse)
    (hy : List.dropWhile Char.isWhitespace y = y) :
    pyStrip (a ++ y.reverse) = a ++ y.reverse := by
  unfold pyStrip List.rdropWhile
  rw [List.dropWhile_append, haH, hne]
  rw [if_neg Bool.false_ne_true]
  rw [List.reverse_append, List.reverse_reverse, List.dropWhile_append, hy]
  by_cases hye : y.isEmpty = true
  · rw [if_pos hye, haR]
    have hynil : y = [] := List.isEmpty_iff.mp hye
    subst hynil
    simp
  · rw [if_neg hye, List.reverse_append, List.reverse_reverse]

theorem pyStrip_websearch (g : List Char) :
    pyStrip ("web_search:".data ++ pyStrip g) = "web_search:".data ++ pyStrip g := by
  have hx : pyStrip g = (List.dropWhile Char.isWhitespace
      ((List.dropWhile Char.isWhitespace g).reverse)).reverse := by
    simp [pyStrip, List.rdropWhile]
  rw [hx]
  exact strip_of_clean _ _ (by decide) (by decide) (by decide)
    (List.dropWhile_idempotent _ _)

theorem extractQuery_stripped (prompt : String) :
    ∃ g, extractQuery prompt = ⟨pyStrip g⟩ := by
  rcases hq : scanQuery prompt.data with _ | g
  · exact ⟨prompt.data, by simp only [extractQuery, hq]⟩
  · exact ⟨g, by simp only [extractQuery, hq]⟩

/-- C3: the prompt `"Apprends que Paris est la capitale de la France"`, sent to
`respond` on an empty memory, stores exactly one fact, with subject
`"Paris"`, value `"la capitale de la France"`, provenance `"user"` and
confidence 0.2, and the returned response echoes the subject and value. -/
theorem respond_apprends_paris (now : String) (ids : Nat → String) :
    ((respond searchWebDefault now ids ⟨⟨[], []⟩, []⟩
        "Apprends que Paris est la capitale de la France").1.memory.facts.map
      (fun f => (f.subject, f.value, f.provenance, f.confidence))
      = [("Paris", "la capitale de la France", "user", (0.2 : Rat))]) ∧
    (respond searchWebDefault now ids ⟨⟨[], []⟩, []⟩
        "Apprends que Paris est la capitale de la France").2
      = "Je mémorise que Paris est la capitale de la France (provenance utilisateur)." :=
  ⟨rfl, rfl⟩

/-- C7 (counterexample): with the single stored Paris fact, the prompt
`"Qui est Paris"` yields the answer line with a trailing period after
`[<timestamp>]`, so the line is not of the claimed form
`"Selon user: Paris = la capitale de la France [<timestamp>]"` for any
timestamp string: the code appends `"."` after the closing bracket. -/
theorem respond_qui_est_paris_cex :
    (respond searchWebDefault "t0" (fun _ => "u0") ⟨⟨[parisFact], []⟩, []⟩
        "Qui est Paris").2
      = "Selon user: Paris = la capitale de la France [2024-01-01T00:00:00+00:00]." ∧
    ¬ ∃ ts : String,
      "Selon user: Paris = la capitale de la France [2024-01-01T00:00:00+00:00]."
        = "Selon user: Paris = la capitale de la France [" ++ ts ++ "]" := by
  refine ⟨rfl, ?_⟩
  rintro ⟨ts, h⟩
  have h2 := congrArg String.data h
  rw [string_data_append, string_data_append] at h2
  have h3 := congrArg List.getLast? h2
  rw [show ("]" : String).data = [']'] from rfl, List.getLast?_concat] at h3
  have h4 : ("Selon user: Paris = la capitale de la France [2024-01-01T00:00:00+00:00]."
      : String).data.getLast? = some '.' := rfl
  rw [h4] at h3
  exact absurd h3 (by decide)

/-- C7 (amended): with exactly one stored non-deleted fact (subject
`"Paris"`, value `"la capitale de la France"`, provenance `"user"`), the
prompt `"Qui est Paris"` yields exactly one response line, of the form
`"Selon <provenance>: <subject> = <value> [<timestamp>]."` — with the
trailing period the code emits after the bracket. -/
theorem respond_qui_est_paris (now : String) (ids : Nat → String) :
    ((respond searchWebDefault now ids ⟨⟨[parisFact], []⟩, []⟩ "Qui est Paris").1.logs.map
        LogEntry.response
      = [["Selon user: Paris = la capitale de la France [2024-01-01T00:00:00+00:00]."]]) ∧
    (respond searchWebDefault now ids ⟨⟨[parisFact], []⟩, []⟩ "Qui est Paris").2
      = "Selon user: Paris = la capitale de la France [2024-01-01T00:00:00+00:00]." :=
  ⟨rfl, rfl⟩

/-- C5: every `respond` call (whatever the prompt, the prior state and the
search capability) appends exactly one log entry, whose `actions` list is a
singleton drawn from the five recognized tags. -/
theorem respond_logs_one_entry (results : String → List SearchResult) (now : String)
    (ids : Nat → String) (st : AgentState) (prompt : String) :
    ∃ e, (respond results now ids st prompt).1.logs = st.logs ++ [e] ∧
      (e.actions = ["search_web"] ∨ e.actions = ["remember_fact"] ∨
       e.actions = ["remember_preference"] ∨ e.actions = ["forget_fact"] ∨
       e.actions = ["answer"]) := by
  refine ⟨⟨now, prompt, (respondCore results now ids st.memory prompt).response,
    (respondCore results now ids st.memory prompt).actions,
    (respondCore results now ids st.memory prompt).updates⟩, rfl, ?_⟩
  show (respondCore results now ids st.memory prompt).actions = _ ∨ _
  unfold respondCore
  dsimp only
  repeat' split
  all_goals simp

/-- C9: with the default stub `search_web`, every `respond` call that takes
the search branch stores exactly one new fact, whose subject is
`"web_search:"` followed by the extracted query, whose provenance is
`"web"`, and whose confidence is 0.5 — the stub's explicit 0.5 wins over the
0.8 that provenance `"web"` would give by default in `remember_fact`. -/
theorem respond_search_default_stub (prompt : String) (st : AgentState) (now : String)
    (ids : Nat → String)
    (h : (isSubstr "cherche".data (pyStrip (pyLower prompt.data)) ||
          isSubstr "google".data (pyStrip (pyLower prompt.data)) ||
          isSubstr "web".data (pyStrip (pyLower prompt.data))) = true) :
    (respond searchWebDefault now ids st prompt).1.memory.facts.map
        (fun f => (f.subject, f.provenance, f.confidence)) =
      st.memory.facts.map (fun f => (f.subject, f.provenance, f.confidence)) ++
        [("web_search:" ++ extractQuery prompt, "web", (0.5 : Rat))] := by
  obtain ⟨g, hg⟩ := extractQuery_stripped prompt
  simp only [respond]
  unfold respondCore
  simp only [h, if_true, storeResults, searchWebDefault, rememberFact, Option.getD,
    List.map_append, List.map_cons, List.map_nil]
  rw [hg]
  have hsub : (⟨pyStrip ("web_search:" ++ (⟨pyStrip g⟩ : String)).data⟩ : String)
      = "web_search:" ++ (⟨pyStrip g⟩ : String) := by
    have : ("web_search:" ++ (⟨pyStrip g⟩ : String)).data
        = "web_search:".data ++ pyStrip g := by
      rw [string_data_append]
    rw [this, pyStrip_websearch]
    rfl
  rw [hsub]

theorem respond_search_default_stub_witness :
    ((isSubstr "cherche".data (pyStrip (pyLower "cherche Paris".data)) ||
      isSubstr "google".data (pyStrip (pyLower "cherche Paris".data)) ||
      isSubstr "web".data (pyStrip (pyLower "cherche Paris".data))) = true) ∧
    (respond searchWebDefault "t0" (fun _ => "u0") ⟨⟨[], []⟩, []⟩
        "cherche Paris").1.memory.facts.map
      (fun f => (f.subject, f.provenance, f.confidence)) =
      [("web_search:Paris", "web", (0.5 : Rat))] :=
  ⟨by decide,
   respond_search_default_stub "cherche Paris" ⟨⟨[], []⟩, []⟩ "t0" (fun _ => "u0")
     (by decide)⟩

/-- C4 (counterexample): for the prompt `"Je n'aime pas .NET"` the text
following the trigger is `".NET"`, yet the stored item is `"NET"`: Python's
`strip(" .")` trims spaces and periods from BOTH ends, not only trailing
ones (trailing-trimming `".NET"` leaves `".NET"`, which differs from what
the code stores). -/
theorem respond_dislike_cex :
    (scanPatWs dropLitCI "je n'aime pas".data "Je n'aime pas .NET".data
        = some ".NET".data) ∧
    (respond searchWebDefault "t0" (fun _ => "u0") ⟨⟨[], []⟩, []⟩
        "Je n'aime pas .NET").1.memory.preferences
      = [("dislikes", [("NET", ⟨"dislike", "t0"⟩)])] ∧
    (⟨List.rdropWhile (fun c => [' ', '.'].contains c) ".NET".data⟩ : String) = ".NET" ∧
    ("NET" : String) ≠ ".NET" := by
  refine ⟨by decide, rfl, rfl, by decide⟩

/-- C4 (amended): a prompt containing the trigger `"je n'aime pas"` followed
by an item, and containing neither `"mon avis"` nor `"j'aime"` nor any
higher-priority search or fact trigger, is never classified as a like:
`respond` stores the preference under category `"dislikes"` with opinion
`"dislike"` and the item equal to the captured text with spaces and periods
trimmed from both ends (Python `strip(" .")`), tagging the single action
`remember_preference`. -/
theorem respond_dislike (prompt : String) (x : List Char) (st : AgentState)
    (now : String) (ids : Nat → String)
    (hs : (isSubstr "cherche".data (pyStrip (pyLower prompt.data)) ||
           isSubstr "google".data (pyStrip (pyLower prompt.data)) ||
           isSubstr "web".data (pyStrip (pyLower prompt.data))) = false)
    (hf : (isSubstr "apprends que".data (pyStrip (pyLower prompt.data)) ||
           isSubstr "tiens sache que".data (pyStrip (pyLower prompt.data))) = false)
    (ht : isSubstr "je n'aime pas".data (pyStrip (pyLower prompt.data)) = true)
    (ha : isSubstr "mon avis".data (pyLower prompt.data) = false)
    (hl : isSubstr "j'aime".data (pyLower prompt.data) = false)
    (hd : scanPatWs dropLitCI "je n'aime pas".data prompt.data = some x) :
    (respond searchWebDefault now ids st prompt).1.memory.preferences =
      rememberPreference now "dislikes" ⟨pyStripChars [' ', '.'] x⟩ "dislike"
        st.memory.preferences ∧
    (respond searchWebDefault now ids st prompt).1.logs.map LogEntry.actions =
      st.logs.map LogEntry.actions ++ [["remember_preference"]] := by
  have hlike : scanPatWs dropLitCI "j'aime".data prompt.data = none :=
    scanPatWs_none "j'aime".data prompt.data hl
  have hparse : parsePreferenceStatement prompt =
      some ⟨"dislikes", ⟨pyStripChars [' ', '.'] x⟩, "dislike"⟩ := by
    unfold parsePreferenceStatement
    simp [ha, hlike, hd]
  constructor
  · simp only [respond]
    unfold respondCore
    simp [hs, hf, ht, hparse]
  · simp only [respond]
    unfold respondCore
    simp [hs, hf, ht, hparse]

theorem respond_dislike_witness :
    (scanPatWs dropLitCI "je n'aime pas".data "Je n'aime pas le froid".data
        = some "le froid".data) ∧
    (respond searchWebDefault "t0" (fun _ => "u0") ⟨⟨[], []⟩, []⟩
        "Je n'aime pas le froid").1.memory.preferences
      = [("dislikes", [("le froid", ⟨"dislike", "t0"⟩)])] :=
  ⟨by decide,
   (respond_dislike "Je n'aime pas le froid" "le froid".data ⟨⟨[], []⟩, []⟩ "t0"
     (fun _ => "u0") (by decide) (by decide) (by decide) (by decide) (by decide)
     (by decide)).1⟩

end Axon
